import Mathlib

/-!
# Verification of the ARI STT/TTS real-time media orchestrator

Shallow embedding, in Lean 4, of the per-call media components of the
repository (RTP receiver with jitter buffer and circular pre-buffer, WAV
framer, recognizer adapter, per-call configuration merge, finalization and
cleanup), together with theorems settling the specification claims.

Buffers (Node.js `Buffer`) are modelled as `List Nat` with every entry a
byte value `< 256`; JS strings appearing as data are modelled as `List Char`
or `String` as convenient.
-/

namespace WavFramer

/-! ## WAV framer (`addWavHeader` / `createWavHeader`)

Embedding of the WAV framer module: `createWavHeader` writes, little-endian,
a canonical 44-byte PCM RIFF/WAVE header into a fresh buffer; `addWavHeader`
prepends it to the PCM bytes.  The 13 `Buffer.write*` calls of the source
cover the offsets 0..43 contiguously, so the header is the concatenation of
the encoded fields in source order. -/

/-- Little-endian 2-byte encoding, as `Buffer.writeUInt16LE`. -/
def u16le (n : Nat) : List Nat := [n % 256, n / 256 % 256]

/-- Little-endian 4-byte encoding, as `Buffer.writeUInt32LE`. -/
def u32le (n : Nat) : List Nat :=
  [n % 256, n / 256 % 256, n / 65536 % 256, n / 16777216 % 256]

/-- The `options` object of `createWavHeader`. -/
structure WavOptions where
  numChannels : Nat
  sampleRate : Nat
  bitDepth : Nat
  deriving Repr, DecidableEq

/-- `createWavHeader({numChannels, sampleRate, bitDepth}, dataLength)`.
The ASCII tags `RIFF`, `WAVE`, `fmt ` and `data` are written as their
byte values. -/
def createWavHeader (o : WavOptions) (dataLength : Nat) : List Nat :=
  let blockAlign := o.numChannels * (o.bitDepth / 8)
  let byteRate := o.sampleRate * blockAlign
  [82, 73, 70, 70] ++            -- 'RIFF'
  u32le (36 + dataLength) ++
  [87, 65, 86, 69] ++            -- 'WAVE'
  [102, 109, 116, 32] ++         -- 'fmt '
  u32le 16 ++
  u16le 1 ++                     -- AudioFormat = 1 (PCM)
  u16le o.numChannels ++
  u32le o.sampleRate ++
  u32le byteRate ++
  u16le blockAlign ++
  u16le o.bitDepth ++
  [100, 97, 116, 97] ++          -- 'data'
  u32le dataLength

/-- `addWavHeader(pcmData, options)` = header followed by the PCM bytes. -/
def addWavHeader (pcmData : List Nat) (o : WavOptions) : List Nat :=
  createWavHeader o pcmData.length ++ pcmData

/-- Little-endian 2-byte read at `off` (out-of-range bytes read as 0). -/
def readU16LE (b : List Nat) (off : Nat) : Nat :=
  b.getD off 0 + 256 * b.getD (off + 1) 0

/-- Little-endian 4-byte read at `off`. -/
def readU32LE (b : List Nat) (off : Nat) : Nat :=
  b.getD off 0 + 256 * b.getD (off + 1) 0 +
  65536 * b.getD (off + 2) 0 + 16777216 * b.getD (off + 3) 0

/-- Parser for the canonical 44-byte PCM WAV layout produced by the framer:
checks the four ASCII tags, the PCM format tag, and the two length fields,
and returns the declared format together with the data bytes.  (The spec
describes the wrapped buffer by the values of these fields; this parser is
their direct reading.) -/
def parseWav (b : List Nat) : Option (WavOptions × List Nat) :=
  if b.length ≥ 44 ∧
     b.take 4 = [82, 73, 70, 70] ∧
     (b.drop 8).take 4 = [87, 65, 86, 69] ∧
     (b.drop 12).take 4 = [102, 109, 116, 32] ∧
     readU32LE b 16 = 16 ∧
     readU16LE b 20 = 1 ∧
     (b.drop 36).take 4 = [100, 97, 116, 97] ∧
     readU32LE b 40 = b.length - 44 ∧
     readU32LE b 4 = 36 + (b.length - 44) then
    some (⟨readU16LE b 22, readU32LE b 24, readU16LE b 34⟩, b.drop 44)
  else
    none

/-- C8: wrapping a PCM buffer produces a 44-byte little-endian canonical PCM
WAV header followed by the unmodified PCM bytes, with `ChunkSize = 36 + len`,
`ByteRate = sample_rate × channels × bit_depth/8`, `BlockAlign = channels ×
bit_depth/8`, `AudioFormat = 1` and `Subchunk2Size = len`; parsing the
wrapped buffer recovers the given format and the original PCM.  The bound
hypotheses are the ranges outside which the source's `Buffer.writeUInt16LE`
/ `writeUInt32LE` calls would throw `ERR_OUT_OF_RANGE`, and `8 ∣ bitDepth`
makes the JS real division `bitDepth / 8` agree with Nat division (the
declared bit depths are byte-aligned). -/
theorem wav_wrap_fields_and_roundtrip (pcm : List Nat) (o : WavOptions)
    (hd : 8 ∣ o.bitDepth)
    (hc : o.numChannels < 65536) (hb : o.bitDepth < 65536)
    (hba : o.numChannels * (o.bitDepth / 8) < 65536)
    (hsr : o.sampleRate < 4294967296)
    (hbr : o.sampleRate * (o.numChannels * (o.bitDepth / 8)) < 4294967296)
    (hlen : 36 + pcm.length < 4294967296) :
    (addWavHeader pcm o).length = 44 + pcm.length ∧
    readU32LE (addWavHeader pcm o) 4 = 36 + pcm.length ∧
    readU16LE (addWavHeader pcm o) 20 = 1 ∧
    readU32LE (addWavHeader pcm o) 28
      = o.sampleRate * (o.numChannels * (o.bitDepth / 8)) ∧
    readU16LE (addWavHeader pcm o) 32 = o.numChannels * (o.bitDepth / 8) ∧
    readU32LE (addWavHeader pcm o) 40 = pcm.length ∧
    (addWavHeader pcm o).drop 44 = pcm ∧
    parseWav (addWavHeader pcm o) = some (o, pcm) := by
  refine ⟨?_, ?_, ?_, ?_, ?_, ?_, ?_, ?_⟩
  · simp [addWavHeader, createWavHeader, u16le, u32le]; omega
  · simp [addWavHeader, createWavHeader, u16le, u32le, readU32LE]; omega
  · simp [addWavHeader, createWavHeader, u16le, u32le, readU16LE]
  · simp [addWavHeader, createWavHeader, u16le, u32le, readU32LE]; omega
  · simp [addWavHeader, createWavHeader, u16le, u32le, readU16LE]; omega
  · simp [addWavHeader, createWavHeader, u16le, u32le, readU32LE]; omega
  · simp [addWavHeader, createWavHeader, u16le, u32le]
  · rw [parseWav, if_pos]
    · have h1 : readU16LE (addWavHeader pcm o) 22 = o.numChannels := by
        simp [addWavHeader, createWavHeader, u16le, u32le, readU16LE]; omega
      have h2 : readU32LE (addWavHeader pcm o) 24 = o.sampleRate := by
        simp [addWavHeader, createWavHeader, u16le, u32le, readU32LE]; omega
      have h3 : readU16LE (addWavHeader pcm o) 34 = o.bitDepth := by
        simp [addWavHeader, createWavHeader, u16le, u32le, readU16LE]; omega
      have h4 : (addWavHeader pcm o).drop 44 = pcm := by
        simp [addWavHeader, createWavHeader, u16le, u32le]
      rw [h1, h2, h3, h4]
    · refine ⟨?_, ?_, ?_, ?_, ?_, ?_, ?_, ?_, ?_⟩
      · simp [addWavHeader, createWavHeader, u16le, u32le]
      · simp [addWavHeader, createWavHeader, u16le, u32le]
      · simp [addWavHeader, createWavHeader, u16le, u32le]
      · simp [addWavHeader, createWavHeader, u16le, u32le]
      · simp [addWavHeader, createWavHeader, u16le, u32le, readU32LE]
      · simp [addWavHeader, createWavHeader, u16le, u32le, readU16LE]
      · simp [addWavHeader, createWavHeader, u16le, u32le]
      · simp [addWavHeader, createWavHeader, u16le, u32le, readU32LE]; omega
      · simp [addWavHeader, createWavHeader, u16le, u32le, readU32LE]; omega

/-- Witness for C8: the round-trip at a concrete mono 8 kHz 16-bit format
and a concrete 3-byte PCM buffer. -/
theorem wav_wrap_fields_and_roundtrip_witness :
    parseWav (addWavHeader [7, 8, 9] ⟨1, 8000, 16⟩)
      = some (⟨1, 8000, 16⟩, [7, 8, 9]) :=
  (wav_wrap_fields_and_roundtrip [7, 8, 9] ⟨1, 8000, 16⟩ (by decide) (by decide)
    (by decide) (by decide) (by decide) (by decide) (by decide)).2.2.2.2.2.2.2

end WavFramer

namespace RtpServer

/-! ## RTP receiver (`RtpServer`, the variant with `startPreBuffering` /
`stopPreBufferingAndFlush` used by the call orchestrator)

The mutable fields of the `RtpServer` object are gathered in `RtpState`.
The jitter buffer, a JS `Map`, is an association list in insertion order
(`Map.set` updates an existing key in place, otherwise appends;
`Map.keys()` iterates in insertion order).  `lastPlayedSeq` is an `Int`
because the source uses `-1` as the "uninitialized" sentinel and
`nextAvailableSeq - 1` can be `-1` again.  `missCount` is the closure
variable of `startPlayback` (created once, since `isPlaying` is never
reset); it starts at 0.  The 20 ms interval callback is the `tick`
function; datagram arrival is `onMessage`. -/

abbrev Bytes := List Nat

structure RtpState where
  jitterBuffer : List (Nat × Bytes)
  lastPlayedSeq : Int
  missCount : Nat
  isPlaying : Bool
  isPreBuffering : Bool
  preBuffer : List Bytes
  preBufferSize : Nat
  deriving Repr, DecidableEq

/-- Field values set by the constructor. -/
def initialState : RtpState :=
  { jitterBuffer := [], lastPlayedSeq := -1, missCount := 0, isPlaying := false,
    isPreBuffering := false, preBuffer := [], preBufferSize := 0 }

/-- JS `Map.prototype.set`: update in place if the key exists, else append. -/
def mapSet (m : List (Nat × Bytes)) (k : Nat) (v : Bytes) : List (Nat × Bytes) :=
  if m.any (fun p => p.1 = k) then
    m.map (fun p => if p.1 = k then (k, v) else p)
  else m ++ [(k, v)]

/-- JS `Map.prototype.get` (`has` = `isSome`). -/
def mapLookup (m : List (Nat × Bytes)) (k : Nat) : Option Bytes :=
  (m.find? (fun p => p.1 = k)).map Prod.snd

/-- JS `Map.prototype.delete`. -/
def mapDelete (m : List (Nat × Bytes)) (k : Nat) : List (Nat × Bytes) :=
  m.filter (fun p => p.1 ≠ k)

/-- `Array.from(map.keys())`, in insertion order. -/
def mapKeys (m : List (Nat × Bytes)) : List Nat := m.map Prod.fst

/-- `Math.min(...keys)`; never called on an empty buffer (guarded by
`size === 0`), so the value at `[]` is irrelevant. -/
def minKey : List Nat → Nat
  | [] => 0
  | k :: ks => ks.foldl Nat.min k

/-- `msg.readUInt16BE(2)`. -/
def readSeq (msg : Bytes) : Nat := msg.getD 2 0 * 256 + msg.getD 3 0

/-- `msg.slice(12)`: the RTP payload after the fixed 12-byte header. -/
def payloadOf (msg : Bytes) : Bytes := msg.drop 12

/-- The circular pre-buffer push: `push`, then `shift` when the length
exceeds the capacity. -/
def ringPush (size : Nat) (pb : List Bytes) (p : Bytes) : List Bytes :=
  let pb' := pb ++ [p]
  if pb'.length > size then pb'.drop 1 else pb'

/-- The socket `'message'` handler: in pre-buffering mode the payload goes
into the ring; otherwise it is inserted into the jitter buffer and playback
is started if it was not running (`startPlayback` sets `isPlaying` and
creates the 20 ms interval; its `missCount` closure variable starts at 0,
which is the initial value of our `missCount` field). -/
def onMessage (s : RtpState) (msg : Bytes) : RtpState :=
  let payload := payloadOf msg
  if s.isPreBuffering then
    { s with preBuffer := ringPush s.preBufferSize s.preBuffer payload }
  else
    { s with jitterBuffer := mapSet s.jitterBuffer (readSeq msg) payload,
             isPlaying := true }

/-- `|a - nextSeq|`, the comparator key of the source's skip sort. -/
def absDiff (next a : Nat) : Nat := ((a : Int) - (next : Int)).natAbs

/-- `availableKeys.sort((a, b) => |a-next| - |b-next|)[0]` — the head of a
stable sort by `|a - next|` is the earliest-inserted key attaining the
minimal absolute difference (`Array.prototype.sort` is stable), which this
fold computes directly. -/
def argminAbs (next : Nat) : List Nat → Option Nat
  | [] => none
  | k :: ks =>
      some (ks.foldl (fun best x => if absDiff next x < absDiff next best then x else best) k)

/-- The value `lastPlayedSeq` holds after the initialization line of the
tick (`min key - 1` when still `-1`), before `nextSeq` is computed. -/
def effLast (s : RtpState) : Int :=
  if s.lastPlayedSeq = -1 then (minKey (mapKeys s.jitterBuffer) : Int) - 1
  else s.lastPlayedSeq

/-- `(lastPlayedSeq + 1) % 65536`; the operand is never negative, so the JS
remainder agrees with `Int.emod`. -/
def expectedNext (s : RtpState) : Nat := ((effLast s + 1) % 65536).toNat

/-- The 20 ms `setInterval` callback of `startPlayback`.  Returns the new
state and the emitted `('audioPacket', payload)` if any.  The interval only
exists after `startPlayback` ran, hence the `isPlaying` guard. -/
def tick (s : RtpState) : RtpState × Option (Nat × Bytes) :=
  if !s.isPlaying then (s, none)
  else if s.jitterBuffer.isEmpty then (s, none)
  else
    let last := effLast s
    let nextSeq := expectedNext s
    match mapLookup s.jitterBuffer nextSeq with
    | some payload =>
        ({ s with jitterBuffer := mapDelete s.jitterBuffer nextSeq,
                  lastPlayedSeq := (nextSeq : Int),
                  missCount := 0 },
         some (nextSeq, payload))
    | none =>
        if s.missCount + 1 > 5 then
          match argminAbs nextSeq (mapKeys s.jitterBuffer) with
          | some nextAvailable =>
              ({ s with lastPlayedSeq := (nextAvailable : Int) - 1,
                        missCount := 0 }, none)
          | none =>
              ({ s with lastPlayedSeq := last, missCount := 0 }, none)
        else
          ({ s with lastPlayedSeq := last, missCount := s.missCount + 1 }, none)

/-- `startPreBuffering(bufferSize)`. -/
def startPreBuffering (s : RtpState) (bufferSize : Nat) : RtpState :=
  { s with preBufferSize := bufferSize, preBuffer := [], isPreBuffering := true }

/-- `stopPreBufferingAndFlush()`: leaves pre-buffering mode, returns
`Buffer.concat(preBuffer)` and clears the ring. -/
def stopPreBufferingAndFlush (s : RtpState) : RtpState × Bytes :=
  ({ s with isPreBuffering := false, preBuffer := [] }, s.preBuffer.flatten)

/-- One external stimulus of the receiver: a UDP datagram or an interval
tick. -/
inductive RtpEv where
  | msg (bytes : Bytes)
  | tick
  deriving Repr, DecidableEq

def rtpStep (s : RtpState) : RtpEv → RtpState × Option (Nat × Bytes)
  | .msg b => (onMessage s b, none)
  | .tick => tick s

/-- Run a sequence of stimuli, collecting the emitted `(seq, payload)`
pairs in order. -/
def rtpRun (s : RtpState) : List RtpEv → RtpState × List (Nat × Bytes)
  | [] => (s, [])
  | e :: es =>
      let so := rtpStep s e
      let rest := rtpRun so.1 es
      (rest.1, so.2.toList ++ rest.2)

/-- `msgs.foldl onMessage`: a burst of datagram arrivals. -/
def recvAll (s : RtpState) (msgs : List Bytes) : RtpState := msgs.foldl onMessage s

/-- The last `n` elements of a list. -/
def lastN (n : Nat) (xs : List α) : List α := xs.drop (xs.length - n)

end RtpServer


namespace RtpServer

theorem lastN_cons_of_le (n : Nat) (x : α) (xs : List α) (h : n ≤ xs.length) :
    lastN n (x :: xs) = lastN n xs := by
  simp only [lastN, List.length_cons]
  have e : xs.length + 1 - n = (xs.length - n) + 1 := by omega
  rw [e, List.drop_succ_cons]

theorem ringPush_length_le (size : Nat) (pb : List Bytes) (p : Bytes)
    (h : pb.length ≤ size) : (ringPush size pb p).length ≤ size := by
  unfold ringPush
  by_cases hl : (pb ++ [p]).length > size
  · simp only [if_pos hl]
    simp at hl ⊢
    omega
  · simp only [if_neg hl]
    simp at hl ⊢
    omega

theorem lastN_ringPush (size : Nat) (pb : List Bytes) (p : Bytes) (rest : List Bytes)
    (h : pb.length ≤ size) :
    lastN size (ringPush size pb p ++ rest) = lastN size (pb ++ p :: rest) := by
  unfold ringPush
  by_cases hl : (pb ++ [p]).length > size
  · simp only [if_pos hl]
    have hpb : pb.length = size := by simp at hl; omega
    cases pb with
    | nil =>
        have hz : size = 0 := by simpa using hpb.symm
        subst hz
        simp [lastN, List.drop_length]
    | cons q qs =>
        have h1 : ((q :: qs) ++ [p]).drop 1 = qs ++ [p] := by simp
        rw [h1]
        have h2 : qs ++ [p] ++ rest = qs ++ p :: rest := by simp
        rw [h2]
        have h3 : (q :: qs) ++ p :: rest = q :: (qs ++ p :: rest) := rfl
    
        rw [h3, lastN_cons_of_le]
        simp at hpb ⊢
        omega
  · simp only [if_neg hl]
    simp

theorem recvAll_preBuffer (msgs : List Bytes) :
    ∀ (s : RtpState), s.isPreBuffering = true → s.preBuffer.length ≤ s.preBufferSize →
    recvAll s msgs
      = { s with preBuffer := lastN s.preBufferSize (s.preBuffer ++ msgs.map payloadOf) } := by
  induction msgs with
  | nil =>
      intro s h1 h2
      have e : s.preBuffer.length - s.preBufferSize = 0 := by omega
      simp [recvAll, lastN, e]
  | cons m ms ih =>
      intro s h1 h2
      have e1 : onMessage s m
          = { s with preBuffer := ringPush s.preBufferSize s.preBuffer (payloadOf m) } := by
        simp [onMessage, h1]
      have e2 : recvAll s (m :: ms) = recvAll (onMessage s m) ms := by
        simp [recvAll]
      rw [e2, e1, ih _ (by simp [h1]) (by simpa using ringPush_length_le _ _ _ h2)]
      congr 1
      exact lastN_ringPush _ _ _ _ h2

/-- C2: for every pre-buffer capacity `N` and arrival sequence of `L ≥ N`
datagrams received in pre-buffering mode, `stopPreBufferingAndFlush()`
returns the concatenation of exactly the last `N` payloads in arrival
order, leaves the pre-buffer empty, switches the receiver out of
pre-buffering mode, and a subsequent datagram is inserted into the jitter
buffer (the live path) instead of the ring. -/
theorem rtp_prebuffer_flush (s₀ : RtpState) (N : Nat) (msgs : List Bytes)
    (hN : N ≤ msgs.length) :
    (stopPreBufferingAndFlush (recvAll (startPreBuffering s₀ N) msgs)).2
      = ((msgs.map payloadOf).drop (msgs.length - N)).flatten ∧
    ((msgs.map payloadOf).drop (msgs.length - N)).length = N ∧
    (stopPreBufferingAndFlush (recvAll (startPreBuffering s₀ N) msgs)).1.preBuffer = [] ∧
    (stopPreBufferingAndFlush (recvAll (startPreBuffering s₀ N) msgs)).1.isPreBuffering = false ∧
    (∀ m : Bytes,
      (onMessage (stopPreBufferingAndFlush (recvAll (startPreBuffering s₀ N) msgs)).1 m).preBuffer = [] ∧
      (onMessage (stopPreBufferingAndFlush (recvAll (startPreBuffering s₀ N) msgs)).1 m).jitterBuffer
        = mapSet (recvAll (startPreBuffering s₀ N) msgs).jitterBuffer (readSeq m) (payloadOf m)) := by
  have h := recvAll_preBuffer msgs (startPreBuffering s₀ N) (by simp [startPreBuffering])
    (by simp [startPreBuffering])
  rw [h]
  refine ⟨?_, ?_, ?_, ?_, ?_⟩
  · simp [stopPreBufferingAndFlush, startPreBuffering, lastN]
  · simp only [List.length_drop, List.length_map]
    omega
  · simp [stopPreBufferingAndFlush]
  · simp [stopPreBufferingAndFlush]
  · intro m
    constructor
    · simp [onMessage, stopPreBufferingAndFlush]
    · simp [onMessage, stopPreBufferingAndFlush, startPreBuffering]

end RtpServer

namespace RtpServer

/-- The skip-target metric as claim C1 and §4.3 of the spec word it: the
forward modular distance from `next` to `a` in the circular 16-bit
sequence space.  (This definition follows the spec's words, for comparison
with the source's `absDiff`-based selection.) -/
def fwdDist (next a : Nat) : Nat := (a + 65536 - next) % 65536

/-- The buffered key with the smallest forward modular distance to `next`
(earliest on ties) — the skip target claim C1 asserts. -/
def argminFwd (next : Nat) : List Nat → Option Nat
  | [] => none
  | k :: ks =>
      some (ks.foldl (fun best x => if fwdDist next x < fwdDist next best then x else best) k)

/-- An RTP datagram with the given 16-bit sequence number and payload:
12-byte header with the sequence in bytes 2..3 (big-endian). -/
def mkMsg (seq : Nat) (payload : Bytes) : Bytes :=
  [0, 0, seq / 256, seq % 256, 0, 0, 0, 0, 0, 0, 0, 0] ++ payload

/-- A run in which packet 9 is played, packets 5 (a late straggler, already
behind the playhead) and 20 then arrive, and five playback ticks miss the
expected sequence 10. -/
def skipTraceEvs : List RtpEv :=
  [.msg (mkMsg 9 [99]), .tick, .msg (mkMsg 5 [55]), .msg (mkMsg 20 [77]),
   .tick, .tick, .tick, .tick, .tick]

/-- Counterexample to C1 as stated: on the sixth consecutive missed tick
after `skipTraceEvs`, the receiver skips to sequence 5 (`lastPlayedSeq`
becomes 4), although the buffered key with the smallest forward modular
distance to the expected sequence 10 is 20 — the source selects by
absolute difference `|key - next|`, not by forward modular distance — and
the receiver then emits sequence 5 right after sequence 9, so emitted
sequence numbers are not strictly increasing in modular order. -/
theorem rtp_skip_target_counterexample :
    ((tick (rtpRun initialState skipTraceEvs).1).1.lastPlayedSeq = 4) ∧
    argminFwd (expectedNext (rtpRun initialState skipTraceEvs).1)
        (mapKeys (rtpRun initialState skipTraceEvs).1.jitterBuffer) = some 20 ∧
    ((tick (rtpRun initialState skipTraceEvs).1).1.lastPlayedSeq ≠ (20 : Int) - 1) ∧
    (rtpRun initialState (skipTraceEvs ++ [.tick, .tick])).2.map Prod.fst = [9, 5] := by
  decide

/-- C1 (amended): on every playback tick, any emitted payload is the one
stored under the exact next sequence `(last_played + 1) mod 65536`; and a
tick that emits nothing moves the playhead (beyond the `-1`-sentinel
initialization captured by `effLast`) only when more than 5 consecutive
ticks have missed (`missCount` already at 5, reset to 0 on every hit and
every skip), in which case the skip target is the buffered key with the
smallest absolute difference to the expected next sequence
(earliest-buffered on ties), not the smallest forward modular distance. -/
theorem rtp_tick_exact_next_and_skip (s : RtpState) :
    (∀ q p, (tick s).2 = some (q, p) →
        q = expectedNext s ∧ mapLookup s.jitterBuffer q = some p) ∧
    (s.isPlaying = true → (tick s).2 = none →
      (tick s).1.lastPlayedSeq ≠ effLast s →
      5 ≤ s.missCount ∧
      ∃ t, argminAbs (expectedNext s) (mapKeys s.jitterBuffer) = some t ∧
        (tick s).1.lastPlayedSeq = (t : Int) - 1) := by
  cases hps : s.isPlaying with
  | false =>
      constructor
      · intro q p h
        simp [tick, hps] at h
      · intro h
        simp at h
  | true =>
      by_cases he : s.jitterBuffer.isEmpty
      · constructor
        · intro q p h
          simp [tick, hps, he] at h
        · intro _ _ hne
          exfalso
          apply hne
          have hj : s.jitterBuffer = [] := List.isEmpty_iff.mp he
          by_cases hlp : s.lastPlayedSeq = -1 <;>
            simp [tick, hps, he, effLast, hlp, hj, mapKeys, minKey]
      · cases hl : mapLookup s.jitterBuffer (expectedNext s) with
        | some payload =>
            constructor
            · intro q p h
              have e : (tick s).2 = some (expectedNext s, payload) := by
                simp [tick, hps, he, hl]
              rw [e] at h
              injection h with h3
              injection h3 with hq hp
              subst hq; subst hp
              exact ⟨rfl, hl⟩
            · intro _ hnone _
              have e : (tick s).2 = some (expectedNext s, payload) := by
                simp [tick, hps, he, hl]
              rw [e] at hnone
              exact absurd hnone (by simp)
        | none =>
            by_cases hm : s.missCount + 1 > 5
            · cases ha : argminAbs (expectedNext s) (mapKeys s.jitterBuffer) with
              | some t =>
                  constructor
                  · intro q p h
                    simp [tick, hps, he, hl, hm, ha] at h
                  · intro _ _ _
                    refine ⟨by omega, t, rfl, ?_⟩
                    simp [tick, hps, he, hl, hm, ha]
              | none =>
                  constructor
                  · intro q p h
                    simp [tick, hps, he, hl, hm, ha] at h
                  · intro _ _ hne
                    exfalso
                    apply hne
                    simp [tick, hps, he, hl, hm, ha]
            · constructor
              · intro q p h
                simp [tick, hps, he, hl, hm] at h
              · intro _ _ hne
                exfalso
                apply hne
                simp [tick, hps, he, hl, hm]

end RtpServer

namespace RtpServer

/-- The receiver state reached by `skipTraceEvs`, just before the skip
tick. -/
def sSkip : RtpState :=
  { jitterBuffer := [(5, [55]), (20, [77])], lastPlayedSeq := 9, missCount := 5,
    isPlaying := true, isPreBuffering := false, preBuffer := [], preBufferSize := 0 }

/-- Witness for C1 (amended): at the concrete pre-skip state `sSkip`
(playhead 9, five misses counted, late packet 5 and packet 20 buffered)
the theorem yields the concrete skip to `lastPlayedSeq = 4`. -/
theorem rtp_tick_exact_next_and_skip_witness :
    (tick sSkip).1.lastPlayedSeq = 4 := by
  obtain ⟨-, t, ha, he⟩ :=
    (rtp_tick_exact_next_and_skip sSkip).2 (by decide) (by decide) (by decide)
  have ht : t = 5 := by
    have h5 : some t = some 5 := by rw [← ha]; decide
    injection h5
  rw [he, ht]
  decide

/-- Witness for C2: capacity 2, three arrivals with payloads `[10]`,
`[20]`, `[30]`; the flush returns the last two payloads concatenated. -/
theorem rtp_prebuffer_flush_witness :
    (stopPreBufferingAndFlush (recvAll (startPreBuffering initialState 2)
        [mkMsg 1 [10], mkMsg 2 [20], mkMsg 3 [30]])).2 = [20, 30] ∧
    (stopPreBufferingAndFlush (recvAll (startPreBuffering initialState 2)
        [mkMsg 1 [10], mkMsg 2 [20], mkMsg 3 [30]])).1.preBuffer = [] := by
  have h := rtp_prebuffer_flush initialState 2
    [mkMsg 1 [10], mkMsg 2 [20], mkMsg 3 [30]] (by decide)
  exact ⟨h.1.trans (by decide), h.2.2.1⟩

end RtpServer

namespace Recognizer

/-! ## Recognizer adapter (`AzureService.startContinuousRecognition`)

The provider callbacks attached in `startContinuousRecognition` are the
events of this model.  A `recognized` callback carries whether
`e.result.reason === ResultReason.RecognizedSpeech` and the hypothesis
text; `sessionStopped` is the provider's end-of-session callback, whose
handler logs the accumulated transcript, emits `recognitionEnded` with the
trimmed text, closes the push stream and closes and nulls the recognizer —
after which the SDK delivers no further callbacks to the closed recognizer
(the source relies on this: "When the session stops, we can be sure all
'recognized' events have fired"), modelled by the `recognizerLive` flag.
JS strings are modelled as `List Char`. -/

abbrev Str := List Char

/-- One provider callback of a recognition session. -/
inductive RecEv where
  | recognized (isSpeech : Bool) (text : Str)
  | sessionStopped
  deriving Repr, DecidableEq

/-- The state closed over by the handlers: the `recognizedText`
accumulator string, the emitted `recognitionEnded` payloads, and whether
the recognizer is still open. -/
structure RecState where
  recognizedText : Str
  endedEmits : List Str
  recognizerLive : Bool
  deriving Repr, DecidableEq

def initialRec : RecState := { recognizedText := [], endedEmits := [], recognizerLive := true }

/-- JS `String.prototype.trim` on the characters the transcripts contain:
strips whitespace from both ends (right end first; the order does not
matter for the value). -/
def jsTrim (l : Str) : Str :=
  ((l.reverse.dropWhile Char.isWhitespace).reverse).dropWhile Char.isWhitespace

/-- Processing of one callback, as the handlers in
`startContinuousRecognition` do: a `RecognizedSpeech` result with truthy
(non-empty) text appends `text + ' '` to the accumulator; `sessionStopped`
emits `recognitionEnded(recognizedText.trim())` and closes the
recognizer. -/
def recStep (st : RecState) (e : RecEv) : RecState :=
  if st.recognizerLive then
    match e with
    | .recognized isSpeech text =>
        if isSpeech ∧ text ≠ [] then
          { st with recognizedText := st.recognizedText ++ text ++ [' '] }
        else st
    | .sessionStopped =>
        { st with endedEmits := st.endedEmits ++ [jsTrim st.recognizedText],
                  recognizerLive := false }
  else st

def recRun (evs : List RecEv) : RecState := evs.foldl recStep initialRec

/-- Joining by single spaces, as claim C3 words the final text. -/
def joinSpace : List Str → Str
  | [] => []
  | [t] => t
  | t :: ts => t ++ ' ' :: joinSpace ts

/-- The texts of all final (`RecognizedSpeech`) hypotheses of the session,
i.e. of the `recognized` callbacks delivered before `sessionStopped`. -/
def sessionSpeechTexts (evs : List RecEv) : List Str :=
  (evs.takeWhile (fun e => e ≠ RecEv.sessionStopped)).filterMap
    (fun e => match e with
      | .recognized true t => some t
      | _ => none)

/-- The final text as claim C3 states it: all final hypothesis texts
joined by single spaces and trimmed. -/
def specFinalText (evs : List RecEv) : Str := jsTrim (joinSpace (sessionSpeechTexts evs))

/-- The non-empty texts among the final hypotheses of the session — the
ones the source actually accumulates (`if (e.result.text)`). -/
def preStopTexts (evs : List RecEv) : List Str :=
  (sessionSpeechTexts evs).filter (fun t => t ≠ [])

/-- The accumulator contents after appending each text plus `' '`. -/
def accumFlat (ts : List Str) : Str := (ts.map (fun t => t ++ [' '])).flatten

/-- A session with final hypotheses `"a"`, `""` and `"b"`. -/
def recCevs : List RecEv :=
  [.recognized true ['a'], .recognized true [], .recognized true ['b'], .sessionStopped]

/-- Counterexample to C3 as stated: in a session whose final hypotheses
are `"a"`, `""`, `"b"`, the adapter emits `recognitionEnded` with
`"a b"` (the source skips empty hypothesis texts before appending), while
the texts of all final hypotheses joined by single spaces and trimmed give
`"a  b"` — the two differ. -/
theorem recognizer_final_text_counterexample :
    (recRun recCevs).endedEmits = [['a', ' ', 'b']] ∧
    specFinalText recCevs = ['a', ' ', ' ', 'b'] ∧
    (recRun recCevs).endedEmits ≠ [specFinalText recCevs] := by
  decide

theorem jsTrim_append_space (l : Str) : jsTrim (l ++ [' ']) = jsTrim l := by
  simp [jsTrim, List.dropWhile_cons]

theorem accumFlat_eq_joinSpace_append (ts : List Str) (h : ts ≠ []) :
    accumFlat ts = joinSpace ts ++ [' '] := by
  induction ts with
  | nil => exact absurd rfl h
  | cons t ts ih =>
      cases ts with
      | nil => simp [accumFlat, joinSpace]
      | cons u us =>
          have := ih (by simp)
          simp only [accumFlat, List.map_cons, List.flatten_cons] at this ⊢
          rw [this]
          simp [joinSpace]

theorem jsTrim_accumFlat (ts : List Str) :
    jsTrim (accumFlat ts) = jsTrim (joinSpace ts) := by
  cases h : ts with
  | nil => simp [accumFlat, joinSpace]
  | cons t ts' =>
      rw [accumFlat_eq_joinSpace_append _ (by simp), jsTrim_append_space]

theorem recStep_dead (st : RecState) (h : st.recognizerLive = false) (e : RecEv) :
    recStep st e = st := by
  simp [recStep, h]

theorem recRun_dead (evs : List RecEv) :
    ∀ st : RecState, st.recognizerLive = false → evs.foldl recStep st = st := by
  induction evs with
  | nil => intro st _; rfl
  | cons e es ih =>
      intro st h
      simp only [List.foldl_cons, recStep_dead st h e]
      exact ih st h

theorem recProcess (evs : List RecEv) :
    ∀ st : RecState, st.recognizerLive = true →
    (RecEv.sessionStopped ∈ evs →
       (evs.foldl recStep st).endedEmits
         = st.endedEmits ++ [jsTrim (st.recognizedText ++ accumFlat (preStopTexts evs))] ∧
       (evs.foldl recStep st).recognizerLive = false) ∧
    (RecEv.sessionStopped ∉ evs →
       (evs.foldl recStep st).endedEmits = st.endedEmits ∧
       (evs.foldl recStep st).recognizerLive = true ∧
       (evs.foldl recStep st).recognizedText
         = st.recognizedText ++ accumFlat (preStopTexts evs)) := by
  induction evs with
  | nil =>
      intro st hlive
      constructor
      · intro h; simp at h
      · intro _
        simp [preStopTexts, sessionSpeechTexts, accumFlat, hlive]
  | cons e es ih =>
      intro st hlive
      cases e with
      | sessionStopped =>
          have hstep : recStep st .sessionStopped
              = { st with endedEmits := st.endedEmits ++ [jsTrim st.recognizedText],
                          recognizerLive := false } := by
            simp [recStep, hlive]
          constructor
          · intro _
            simp only [List.foldl_cons, hstep]
            rw [recRun_dead es _ (by rfl)]
            constructor
            · simp [preStopTexts, sessionSpeechTexts, accumFlat]
            · rfl
          · intro h; simp at h
      | recognized isSpeech text =>
          have hmem : (RecEv.recognized isSpeech text) ≠ RecEv.sessionStopped := by
            simp
          by_cases hc : isSpeech = true ∧ text ≠ []
          · have hstep : recStep st (.recognized isSpeech text)
                = { st with recognizedText := st.recognizedText ++ text ++ [' '] } := by
              simp [recStep, hlive, hc.1, hc.2]
            have ihs := ih { st with recognizedText := st.recognizedText ++ text ++ [' '] } (by simp [hlive])
            have hpre : preStopTexts (RecEv.recognized isSpeech text :: es)
                = text :: preStopTexts es := by
              simp [preStopTexts, sessionSpeechTexts, List.takeWhile_cons, hc.1, hc.2]
            constructor
            · intro hm
              have hm' : RecEv.sessionStopped ∈ es := by
                cases hm with
                | tail _ h => exact h
              obtain ⟨h1, h2⟩ := ihs.1 hm'
              simp only [List.foldl_cons, hstep]
              refine ⟨?_, h2⟩
              rw [h1, hpre]
              simp [accumFlat]
            · intro hm
              have hm' : RecEv.sessionStopped ∉ es := fun h => hm (List.mem_cons_of_mem _ h)
              obtain ⟨h1, h2, h3⟩ := ihs.2 hm'
              simp only [List.foldl_cons, hstep]
              refine ⟨h1, h2, ?_⟩
              rw [h3, hpre]
              simp [accumFlat]
          · have hstep : recStep st (.recognized isSpeech text) = st := by
              rcases Decidable.not_and_iff_or_not.mp hc with h | h
              · simp [recStep, hlive, h]
              · simp only [Decidable.not_not] at h
                simp [recStep, hlive, h]
            have hpre : preStopTexts (RecEv.recognized isSpeech text :: es)
                = preStopTexts es := by
              rcases Decidable.not_and_iff_or_not.mp hc with h | h
              · have : isSpeech = false := by
                  cases isSpeech
                  · rfl
                  · exact absurd rfl h
                simp [preStopTexts, sessionSpeechTexts, List.takeWhile_cons, this]
              · simp only [Decidable.not_not] at h
                cases isSpeech <;>
                  simp [preStopTexts, sessionSpeechTexts, List.takeWhile_cons, h]
            constructor
            · intro hm
              have hm' : RecEv.sessionStopped ∈ es := by
                cases hm with
                | tail _ h => exact h
              obtain ⟨h1, h2⟩ := (ih st hlive).1 hm'
              simp only [List.foldl_cons, hstep]
              rw [hpre]
              exact ⟨h1, h2⟩
            · intro hm
              have hm' : RecEv.sessionStopped ∉ es := fun h => hm (List.mem_cons_of_mem _ h)
              obtain ⟨h1, h2, h3⟩ := (ih st hlive).2 hm'
              simp only [List.foldl_cons, hstep]
              rw [hpre]
              exact ⟨h1, h2, h3⟩

/-- C3 (amended): for every recognition session in which the provider
delivers `session_stopped`, the adapter emits `recognitionEnded` exactly
once, with final text equal to the non-empty texts of the session's final
`recognized` hypotheses joined by single spaces and trimmed; afterwards
the recognizer is closed and every subsequent callback leaves the state
unchanged (is ignored). -/
theorem recognizer_ended_once (evs : List RecEv)
    (h : RecEv.sessionStopped ∈ evs) :
    (recRun evs).endedEmits = [jsTrim (joinSpace (preStopTexts evs))] ∧
    (recRun evs).recognizerLive = false ∧
    (∀ e, recStep (recRun evs) e = recRun evs) := by
  obtain ⟨h1, h2⟩ := (recProcess evs initialRec rfl).1 h
  refine ⟨?_, h2, fun e => recStep_dead _ h2 e⟩
  rw [show recRun evs = evs.foldl recStep initialRec from rfl, h1]
  simp [initialRec, jsTrim_accumFlat]

end Recognizer

namespace Recognizer

/-- Witness for C3 (amended): the session `recCevs` ends with the single
emission `"a b"`. -/
theorem recognizer_ended_once_witness :
    (recRun recCevs).endedEmits = [['a', ' ', 'b']] := by
  have h := recognizer_ended_once recCevs (by decide)
  exact h.1.trans (by decide)

end Recognizer

namespace Orchestrator

open RtpServer (Bytes RtpState)

/-! ## Call orchestrator: voice-start handling (`enableTalkDetection`)

Model of the interleaving between the `onTalkingStarted` handler, the
`audioPacket` handler installed in `setupAudioSnooping`, and the stream
readiness callback of the recognizer.  The `onTalkingStarted` body runs in
four stages separated by its `await` points:

* `talkStart`: the `ChannelTalkingStarted` event fires — the handler
  clears the no-input timer, detaches itself (one-shot) and enters the
  barge-in `await`;
* first `talkResume`: the barge-in await completes and the handler
  synchronously calls `stopPreBufferingAndFlush()`;
* `streamReady`: the recognizer's `audioStreamReady` callback sets
  `callState.sttPushStream`;
* second `talkResume` (enabled once the stream is ready, since the handler
  `await`s `setupStt`): if the flushed audio is non-empty it is converted
  and written to the push stream, and `callState.isRecognizing = true` is
  set in the same synchronous block.

The `audioPacket` handler writes a converted live frame to the push stream
only when `callState.isRecognizing && callState.sttPushStream`.  UDP
datagrams (`rtpMsg`) and playback ticks (`rtpTick`) interleave freely. -/

/-- Modelled from the spec: the external `g711` library's µ-law decoder is
not part of this repository; §4.1 specifies "maps each input byte through
the ITU-T G.711 µ-law decode table to a signed 16-bit little-endian
sample", which this standard G.711 decode formula implements.  The claims
below depend only on `ulawToPcm` being a pure function of the buffer. -/
def ulawDecodeSample (b : Nat) : Int :=
  let u := 255 - b % 256
  let t : Int := ((u % 16) * 8 + 132) * 2 ^ (u / 16 % 8)
  if u / 128 = 1 then 132 - t else t - 132

/-- A 16-bit sample as two little-endian bytes (two's complement). -/
def i16le (v : Int) : List Nat :=
  let w := (v % 65536).toNat
  [w % 256, w / 256]

/-- `ulawToPcm` of `audio-converter.js`: per-byte decode to 16-bit LE. -/
def ulawToPcm (ulaw : Bytes) : Bytes :=
  (ulaw.map (fun b => i16le (ulawDecodeSample b))).flatten

/-- One `pushStream.write`: the flushed pre-buffer audio, or a live
frame. -/
inductive WItem where
  | preAudio (bytes : Bytes)
  | liveFrame (bytes : Bytes)
  deriving Repr, DecidableEq

def WItem.isLive : WItem → Bool
  | .liveFrame _ => true
  | .preAudio _ => false

/-- Orchestrator state: the owned receiver, the handler's progress
(`talkStep` 0 = armed, 1 = handler entered, 2 = flushed, 3 = recognizing),
the flushed bytes, `sttPushStream` readiness, `isRecognizing`, and the
sequence of writes issued to the push stream. -/
structure OrchState where
  rtp : RtpState
  talkStep : Nat
  flushed : Bytes
  streamReady : Bool
  isRecognizing : Bool
  writes : List WItem
  deriving Repr, DecidableEq

/-- The interleaved events of the voice-start phase. -/
inductive OEv where
  | rtpMsg (msg : Bytes)
  | rtpTick
  | talkStart
  | streamReady
  | talkResume
  deriving Repr, DecidableEq

/-- One event step (see the section comment for the correspondence with
the source). -/
def ostep (s : OrchState) : OEv → OrchState
  | .rtpMsg m => { s with rtp := RtpServer.onMessage s.rtp m }
  | .rtpTick =>
      let r := RtpServer.tick s.rtp
      match r.2 with
      | some qp =>
          if s.isRecognizing ∧ s.streamReady then
            { s with rtp := r.1, writes := s.writes ++ [.liveFrame (ulawToPcm qp.2)] }
          else { s with rtp := r.1 }
      | none => { s with rtp := r.1 }
  | .talkStart => if s.talkStep = 0 then { s with talkStep := 1 } else s
  | .streamReady => { s with streamReady := true }
  | .talkResume =>
      if s.talkStep = 1 then
        let fr := RtpServer.stopPreBufferingAndFlush s.rtp
        { s with rtp := fr.1, flushed := fr.2, talkStep := 2 }
      else if s.talkStep = 2 ∧ s.streamReady = true then
        if s.flushed ≠ [] then
          { s with writes := s.writes ++ [.preAudio (ulawToPcm s.flushed)],
                   isRecognizing := true, talkStep := 3 }
        else { s with isRecognizing := true, talkStep := 3 }
      else s

/-- State at VAD arming: `enableTalkDetection` has called
`startPreBuffering` and attached the listeners. -/
def orchInit (preBufferCapacity : Nat) : OrchState :=
  { rtp := RtpServer.startPreBuffering RtpServer.initialState preBufferCapacity,
    talkStep := 0, flushed := [], streamReady := false,
    isRecognizing := false, writes := [] }

def orchRun (preBufferCapacity : Nat) (evs : List OEv) : OrchState :=
  evs.foldl ostep (orchInit preBufferCapacity)

/-- Invariant: no writes before recognition starts; recognition starts
only at handler stage 3; an empty flush admits only live writes; and the
write sequence is pre-buffer writes followed by live writes. -/
def OrchInv (s : OrchState) : Prop :=
  (s.isRecognizing = false → s.writes = []) ∧
  (s.talkStep ≠ 3 → s.isRecognizing = false) ∧
  (s.flushed = [] → ∀ x ∈ s.writes, x.isLive = true) ∧
  (∃ p l, s.writes = p ++ l ∧ (∀ x ∈ p, x.isLive = false) ∧ (∀ x ∈ l, x.isLive = true))

theorem orchInv_init (cap : Nat) : OrchInv (orchInit cap) := by
  refine ⟨fun _ => rfl, fun _ => rfl, fun _ x hx => absurd hx (by simp [orchInit]), [], [], ?_, ?_, ?_⟩
  · rfl
  · intro x hx; exact absurd hx (by simp)
  · intro x hx; exact absurd hx (by simp)

theorem orchInv_step (s : OrchState) (e : OEv) (h : OrchInv s) : OrchInv (ostep s e) := by
  obtain ⟨rtp, ts, fl, sr, ir, ws⟩ := s
  obtain ⟨h1, h2, h3, p, l, hw, hp, hl⟩ := h
  simp only at h1 h2 h3 hw
  cases e with
  | rtpMsg m =>
      exact ⟨h1, h2, h3, p, l, hw, hp, hl⟩
  | streamReady =>
      refine ⟨h1, h2, ?_, p, l, hw, hp, hl⟩
      intro hfl
      exact h3 hfl
  | talkStart =>
      by_cases hs : ts = 0
      · subst hs
        simp only [ostep, if_pos rfl]
        refine ⟨h1, ?_, h3, p, l, hw, hp, hl⟩
        intro _
        exact h2 (by decide)
      · simp only [ostep, if_neg hs]
        exact ⟨h1, h2, h3, p, l, hw, hp, hl⟩
  | rtpTick =>
      simp only [ostep]
      cases hr : (RtpServer.tick rtp).2 with
      | none =>
          exact ⟨h1, h2, h3, p, l, hw, hp, hl⟩
      | some qp =>
          cases hir : ir with
          | false =>
              rw [hir] at h1 h2
              dsimp only
              rw [if_neg (by simp)]
              exact ⟨h1, h2, h3, p, l, hw, hp, hl⟩
          | true =>
              rw [hir] at h1 h2
              cases hsr : sr with
              | false =>
                  dsimp only
                  rw [if_neg (by simp)]
                  exact ⟨h1, h2, h3, p, l, hw, hp, hl⟩
              | true =>
                  dsimp only
                  rw [if_pos ⟨rfl, rfl⟩]
                  refine ⟨by simp, ?_, ?_, p, l ++ [.liveFrame (ulawToPcm qp.2)], ?_, hp, ?_⟩
                  · intro hts
                    exact absurd (h2 hts) (by simp)
                  · intro hfl x hx
                    rcases List.mem_append.mp hx with hx | hx
                    · exact h3 hfl x hx
                    · simp only [List.mem_singleton] at hx
                      rw [hx]; rfl
                  · simp only [hw, List.append_assoc]
                  · intro x hx
                    rcases List.mem_append.mp hx with hx | hx
                    · exact hl x hx
                    · simp only [List.mem_singleton] at hx
                      rw [hx]; rfl
  | talkResume =>
      simp only [ostep]
      by_cases hs1 : ts = 1
      · subst hs1
        simp only [if_pos rfl]
        have hir : ir = false := h2 (by decide)
        have hws : ws = [] := h1 hir
        subst hir; subst hws
        refine ⟨fun _ => rfl, fun _ => rfl, ?_, [], [], rfl, ?_, ?_⟩
        · intro _ x hx
          exact absurd hx (by simp)
        · intro x hx; exact absurd hx (by simp)
        · intro x hx; exact absurd hx (by simp)
      · simp only [if_neg hs1]
        by_cases hs2 : ts = 2 ∧ sr = true
        · obtain ⟨hts2, hsr2⟩ := hs2
          subst hts2; subst hsr2
          rw [if_pos ⟨rfl, rfl⟩]
          have hir : ir = false := h2 (by decide)
          have hws : ws = [] := h1 hir
          subst hir; subst hws
          by_cases hf : fl ≠ []
          · rw [if_pos hf]
            refine ⟨by simp, by simp, ?_,
              [.preAudio (ulawToPcm fl)], [], by simp, ?_, ?_⟩
            · intro hfl
              exact absurd hfl hf
            · intro x hx
              simp only [List.mem_singleton] at hx
              rw [hx]; rfl
            · intro x hx; exact absurd hx (by simp)
          · rw [if_neg hf]
            refine ⟨by simp, by simp, ?_, [], [], rfl, ?_, ?_⟩
            · intro _ x hx; exact absurd hx (by simp)
            · intro x hx; exact absurd hx (by simp)
            · intro x hx; exact absurd hx (by simp)
        · rw [if_neg hs2]
          exact ⟨h1, h2, h3, p, l, hw, hp, hl⟩

theorem orchInv_run (cap : Nat) (evs : List OEv) : OrchInv (orchRun cap evs) := by
  have hgen : ∀ (le : List OEv) (s : OrchState), OrchInv s → OrchInv (le.foldl ostep s) := by
    intro le
    induction le with
    | nil => intro s hs; exact hs
    | cons e es ih => intro s hs; exact ih _ (orchInv_step s e hs)
  exact hgen evs _ (orchInv_init cap)

/-- C4: in every interleaving of datagram arrivals, playback ticks,
stream readiness and the voice-start handler's stages, the write sequence
issued to the recognizer push stream is the flushed pre-buffer audio
first, then live frames: no live frame is ever written ahead of the
pre-buffered audio. -/
theorem prebuffer_written_before_live (cap : Nat) (evs : List OEv) :
    ∃ p l, (orchRun cap evs).writes = p ++ l ∧
      (∀ x ∈ p, x.isLive = false) ∧ (∀ x ∈ l, x.isLive = true) :=
  (orchInv_run cap evs).2.2.2

/-- C10: flushing an empty pre-buffer returns a zero-length buffer (a
total operation — `Buffer.concat([])` does not throw), and the
orchestrator writes pre-buffered audio to the push stream only when the
flushed buffer is non-empty, so in every interleaving whose flush came up
empty, every write is a live frame — a zero-length write never reaches
the push stream from the flush path. -/
theorem empty_flush_never_written (s : RtpState) (cap : Nat) (evs : List OEv)
    (hpb : s.preBuffer = []) :
    (RtpServer.stopPreBufferingAndFlush s).2 = [] ∧
    ((orchRun cap evs).flushed = [] →
      ∀ x ∈ (orchRun cap evs).writes, x.isLive = true) := by
  constructor
  · simp [RtpServer.stopPreBufferingAndFlush, hpb]
  · exact (orchInv_run cap evs).2.2.1

/-- Witness for C10: the initial receiver state flushes to `[]`, and a
concrete run in which voice-start fires before any RTP frame arrived
produces only live writes. -/
theorem empty_flush_never_written_witness :
    (RtpServer.stopPreBufferingAndFlush RtpServer.initialState).2 = [] ∧
    ((orchRun 4 [.talkStart, .talkResume, .streamReady, .talkResume,
        .rtpMsg (RtpServer.mkMsg 1 [10]), .rtpTick]).flushed = [] →
      ∀ x ∈ (orchRun 4 [.talkStart, .talkResume, .streamReady, .talkResume,
        .rtpMsg (RtpServer.mkMsg 1 [10]), .rtpTick]).writes, x.isLive = true) :=
  empty_flush_never_written RtpServer.initialState 4 _ (by decide)

end Orchestrator

namespace Finalize

/-! ## Finalization (`continueInDialplan`) -/

/-- One externally visible action of `continueInDialplan`: saving the
captured STT audio, the fire-and-forget interaction row, a
`setChannelVar`, or `continueInDialplan()` on the channel. -/
inductive DpAct where
  | saveAudio (pcm : RtpServer.Bytes)
  | saveInteraction
  | setVar (name value : String)
  | continueScript
  deriving Repr, DecidableEq

def DpAct.setVarOf : DpAct → Option (String × String)
  | .setVar n v => some (n, v)
  | _ => none

/-- The fields of `callState` that `continueInDialplan` reads. -/
structure FinalState where
  recognitionMode : String
  dtmfDigits : String
  finalTranscript : String
  sttAudioChunks : List RtpServer.Bytes
  deriving Repr, DecidableEq

/-- The action sequence of `continueInDialplan`: save the concatenated
converted STT audio when any was captured, persist the interaction, then
either the DTMF pair or the voice pair of script variables, then ask the
switch to continue the script. -/
def continueInDialplan (st : FinalState) : List DpAct :=
  (if st.sttAudioChunks.length > 0 then
     [DpAct.saveAudio (Orchestrator.ulawToPcm st.sttAudioChunks.flatten)]
   else []) ++
  [DpAct.saveInteraction] ++
  (if st.recognitionMode = "dtmf" then
     [DpAct.setVar "DTMF_RESULT" st.dtmfDigits,
      DpAct.setVar "RECOGNITION_MODE" "DTMF"]
   else
     [DpAct.setVar "TRANSCRIPT" st.finalTranscript,
      DpAct.setVar "RECOGNITION_MODE" "VOICE"]) ++
  [DpAct.continueScript]

/-- C5: for every call that reaches finalization, the switch receives
exactly one of the two variable pairs — `DTMF_RESULT` (the accumulated
digits) with `RECOGNITION_MODE = DTMF` when the recognition mode is
keypad, otherwise `TRANSCRIPT` (the final transcript) with
`RECOGNITION_MODE = VOICE` — and the continue-script request comes
last. -/
theorem finalize_writes_one_pair (st : FinalState) :
    ((continueInDialplan st).filterMap DpAct.setVarOf
      = if st.recognitionMode = "dtmf"
        then [("DTMF_RESULT", st.dtmfDigits), ("RECOGNITION_MODE", "DTMF")]
        else [("TRANSCRIPT", st.finalTranscript), ("RECOGNITION_MODE", "VOICE")]) ∧
    (continueInDialplan st).getLast? = some DpAct.continueScript := by
  constructor <;>
    by_cases h : st.recognitionMode = "dtmf" <;>
      by_cases h2 : st.sttAudioChunks.length > 0 <;>
        simp [continueInDialplan, h, h2, DpAct.setVarOf]

end Finalize

namespace Cleanup

/-! ## Cleanup (`App.cleanup` and `RtpServer.close`)

The resources held by a `callState`, as booleans (held/alive = `true`).
`cleanup` clears the three timers, removes the channel listeners, hangs up
the snoop and external media channels and destroys both bridges — each of
those four guarded by `try/catch` that swallows errors — then calls
`rtpServer.close()` *unguarded*, then `stopContinuousRecognition()` (which
is a no-op when the recognizer is already null).  `RtpServer.close()`
clears the interval and calls `socket.close()` on its UDP socket; Node's
`dgram.Socket.close()` throws `ERR_SOCKET_DGRAM_NOT_RUNNING` when the
socket is already closed, which `Except.error` models. -/

structure CallRes where
  timerSession : Bool
  timerNoInput : Bool
  timerDtmf : Bool
  channelListeners : Bool
  snoopChannelUp : Bool
  externalMediaChannelUp : Bool
  userBridgeAlive : Bool
  snoopBridgeAlive : Bool
  hasRtpServer : Bool
  rtpIntervalActive : Bool
  rtpSocketOpen : Bool
  recognizerLive : Bool
  deriving Repr, DecidableEq

/-- `RtpServer.close()`: `clearInterval` (idempotent), then
`socket.close()`, which throws if the socket is already closed. -/
def rtpClose (s : CallRes) : Except String CallRes :=
  let s1 := { s with rtpIntervalActive := false }
  if s1.rtpSocketOpen then Except.ok { s1 with rtpSocketOpen := false }
  else Except.error "ERR_SOCKET_DGRAM_NOT_RUNNING"

/-- `stopContinuousRecognition()`: requests stop if a recognizer is live;
null-checked, hence idempotent. -/
def stopRecognition (s : CallRes) : CallRes :=
  { s with recognizerLive := false }

/-- `App.cleanup` (for a call whose media topology was built, i.e.
`rtpServer` is set): the four channel/bridge releases swallow their own
errors, but `rtpServer.close()` is not wrapped, so its exception
propagates out of `cleanup`. -/
def cleanup (s : CallRes) : Except String CallRes :=
  let s1 := { s with timerSession := false, timerNoInput := false, timerDtmf := false,
                     channelListeners := false,
                     snoopChannelUp := false, externalMediaChannelUp := false,
                     userBridgeAlive := false, snoopBridgeAlive := false }
  if s1.hasRtpServer then
    match rtpClose s1 with
    | .ok s2 => .ok (stopRecognition s2)
    | .error e => .error e
  else .ok (stopRecognition s1)

/-- A call state holding every resource (after full topology setup). -/
def fullRes : CallRes :=
  { timerSession := true, timerNoInput := true, timerDtmf := true,
    channelListeners := true, snoopChannelUp := true, externalMediaChannelUp := true,
    userBridgeAlive := true, snoopBridgeAlive := true, hasRtpServer := true,
    rtpIntervalActive := true, rtpSocketOpen := true, recognizerLive := true }

/-- The state after a successful cleanup: everything released; the
`rtpServer` reference itself is never nulled. -/
def releasedRes : CallRes :=
  { timerSession := false, timerNoInput := false, timerDtmf := false,
    channelListeners := false, snoopChannelUp := false, externalMediaChannelUp := false,
    userBridgeAlive := false, snoopBridgeAlive := false, hasRtpServer := true,
    rtpIntervalActive := false, rtpSocketOpen := false, recognizerLive := false }

/-- C6 (divergence witness): the first `cleanup` releases every resource,
but a second invocation is not a no-op — `rtpServer.close()` calls
`socket.close()` on the already-closed UDP socket and the resulting
`ERR_SOCKET_DGRAM_NOT_RUNNING` propagates out of `cleanup`, contradicting
the claimed idempotence (spec §8 property 5, §4.7 step 14 "all operations
are best-effort and swallow errors"). -/
theorem cleanup_second_invocation_throws :
    cleanup fullRes = .ok releasedRes ∧
    cleanup releasedRes = .error "ERR_SOCKET_DGRAM_NOT_RUNNING" := by
  constructor <;> rfl

end Cleanup

namespace CallConfig

/-! ## Per-call configuration (`createCallConfig`)

The nested configuration object of `config.js`, typed by the declared
parse types of the dialplan override mapping (`database.port` is declared
an integer there).  `config.js` has no `app.prompt` subtree; the
`PROMPT_MODE` / `PLAYBACK_FILE_PATH` overrides create it via lodash `set`,
hence its `Option` fields.  The default values themselves come from the
process environment and are irrelevant to the claims, so the process
defaults are a parameter throughout.

JS string operations that appear in the merge (`startsWith`,
`toLowerCase`) are embedded as character-list computations (`jsStartsWith`,
`jsToLower`), and `parseIntJS` embeds `parseInt(value, 10)`: skip leading
whitespace, optional sign, leading decimal digits, `NaN` (`none`) when no
digit follows. -/

structure AriConfig where
  url : String
  username : String
  password : String
  appName : String
  deriving Repr, DecidableEq, Inhabited

structure AzureTtsConfig where
  language : String
  voiceName : String
  outputFormat : String
  deriving Repr, DecidableEq, Inhabited

structure AzureSttConfig where
  language : String
  deriving Repr, DecidableEq, Inhabited

structure AzureConfig where
  subscriptionKey : String
  region : String
  tts : AzureTtsConfig
  stt : AzureSttConfig
  deriving Repr, DecidableEq, Inhabited

structure TalkDetectConfig where
  silenceThreshold : Int
  speechThreshold : Int
  deriving Repr, DecidableEq, Inhabited

structure VadConfig where
  activationMode : String
  activationDelay : Int
  deriving Repr, DecidableEq, Inhabited

structure TimeoutsConfig where
  session : Int
  noInput : Int
  deriving Repr, DecidableEq, Inhabited

structure DtmfConfig where
  enabled : Bool
  completionTimeout : Int
  deriving Repr, DecidableEq, Inhabited

structure PromptConfig where
  mode : Option String
  playbackPath : Option String
  deriving Repr, DecidableEq, Inhabited

structure AppBehaviorConfig where
  talkDetect : TalkDetectConfig
  vad : VadConfig
  timeouts : TimeoutsConfig
  dtmf : DtmfConfig
  prompt : PromptConfig
  deriving Repr, DecidableEq, Inhabited

structure RtpServerConfig where
  ip : String
  port : Int
  audioFormat : String
  preBufferSize : Int
  deriving Repr, DecidableEq, Inhabited

structure LoggingConfig where
  level : String
  deriving Repr, DecidableEq, Inhabited

structure DatabaseConfig where
  dialect : String
  storage : String
  host : String
  port : Int
  username : String
  password : String
  database : String
  deriving Repr, DecidableEq, Inhabited

structure Config where
  ari : AriConfig
  azure : AzureConfig
  app : AppBehaviorConfig
  rtpServer : RtpServerConfig
  logging : LoggingConfig
  database : DatabaseConfig
  deriving Repr, DecidableEq, Inhabited

/-- A parsed dialplan override value (string, integer or boolean). -/
inductive DpValue where
  | str (s : String)
  | int (n : Int)
  | bool (b : Bool)
  deriving Repr, DecidableEq

/-- The fixed name-to-path mapping of `createCallConfig`, verbatim. -/
def varToPathMap : List (String × String) :=
  [("ARI_URL", "ari.url"),
   ("ARI_USERNAME", "ari.username"),
   ("ARI_PASSWORD", "ari.password"),
   ("ARI_APP_NAME", "ari.appName"),
   ("AZURE_SPEECH_SUBSCRIPTION_KEY", "azure.subscriptionKey"),
   ("AZURE_SPEECH_REGION", "azure.region"),
   ("AZURE_TTS_LANGUAGE", "azure.tts.language"),
   ("AZURE_TTS_VOICE_NAME", "azure.tts.voiceName"),
   ("AZURE_TTS_OUTPUT_FORMAT", "azure.tts.outputFormat"),
   ("AZURE_STT_LANGUAGE", "azure.stt.language"),
   ("VAD_ACTIVATION_MODE", "app.vad.activationMode"),
   ("VAD_ACTIVATION_DELAY_MS", "app.vad.activationDelay"),
   ("TALK_DETECT_SILENCE_THRESHOLD", "app.talkDetect.silenceThreshold"),
   ("TALK_DETECT_SPEECH_THRESHOLD", "app.talkDetect.speechThreshold"),
   ("PROMPT_MODE", "app.prompt.mode"),
   ("PLAYBACK_FILE_PATH", "app.prompt.playbackPath"),
   ("ARI_SESSION_TIMEOUT_MS", "app.timeouts.session"),
   ("NO_INPUT_TIMEOUT_MS", "app.timeouts.noInput"),
   ("RTP_PREBUFFER_SIZE", "rtpServer.preBufferSize"),
   ("ENABLE_DTMF", "app.dtmf.enabled"),
   ("DTMF_COMPLETION_TIMEOUT_MS", "app.dtmf.completionTimeout"),
   ("EXTERNAL_MEDIA_SERVER_IP", "rtpServer.ip"),
   ("EXTERNAL_MEDIA_SERVER_PORT", "rtpServer.port"),
   ("EXTERNAL_MEDIA_AUDIO_FORMAT", "rtpServer.audioFormat"),
   ("LOG_LEVEL", "logging.level"),
   ("DB_DIALECT", "database.dialect"),
   ("DB_STORAGE", "database.storage"),
   ("DB_HOST", "database.host"),
   ("DB_PORT", "database.port"),
   ("DB_USER", "database.username"),
   ("DB_PASSWORD", "database.password"),
   ("DB_DATABASE", "database.database")]

/-- `varToPathMap[configKey]` (an object property lookup). -/
def lookupPath (configKey : String) : Option String :=
  (varToPathMap.find? (fun p => p.1 = configKey)).map Prod.snd

def intKeys : List String :=
  ["VAD_ACTIVATION_DELAY_MS", "TALK_DETECT_SILENCE_THRESHOLD",
   "TALK_DETECT_SPEECH_THRESHOLD", "ARI_SESSION_TIMEOUT_MS",
   "NO_INPUT_TIMEOUT_MS", "RTP_PREBUFFER_SIZE",
   "DTMF_COMPLETION_TIMEOUT_MS", "EXTERNAL_MEDIA_SERVER_PORT", "DB_PORT"]

def boolKeys : List String := ["ENABLE_DTMF"]

def jsToLower (v : String) : String := ⟨v.toList.map Char.toLower⟩

def jsStartsWith (v pat : String) : Bool := v.toList.take pat.toList.length == pat.toList

def digitsVal (ds : List Char) : Nat :=
  ds.foldl (fun a c => a * 10 + (c.toNat - 48)) 0

def parseIntJS (v : String) : Option Int :=
  let cs := v.toList.dropWhile Char.isWhitespace
  let sc : Int × List Char :=
    match cs with
    | '-' :: rest => (-1, rest)
    | '+' :: rest => (1, rest)
    | _ => (1, cs)
  let ds := sc.2.takeWhile Char.isDigit
  if ds = [] then none else some (sc.1 * (digitsVal ds : Int))

/-- `parseDialplanValue(key, value)`: integers via `parseInt` (`NaN` →
`null`, i.e. `none`), booleans via `value.toLowerCase() === 'true'`
(never fails), strings as-is. -/
def parseDialplanValue (configKey value : String) : Option DpValue :=
  if configKey ∈ intKeys then (parseIntJS value).map DpValue.int
  else if configKey ∈ boolKeys then some (DpValue.bool (jsToLower value = "true"))
  else some (DpValue.str value)

/-- lodash `set(callConfig, configPath, parsedValue)` for the 32 paths of
the mapping; the parsed value's type always matches the declared field
type, so the fall-through case is unreachable for mapped keys. -/
def setPath (c : Config) (path : String) (v : DpValue) : Config :=
  match path, v with
  | "ari.url", .str s => { c with ari.url := s }
  | "ari.username", .str s => { c with ari.username := s }
  | "ari.password", .str s => { c with ari.password := s }
  | "ari.appName", .str s => { c with ari.appName := s }
  | "azure.subscriptionKey", .str s => { c with azure.subscriptionKey := s }
  | "azure.region", .str s => { c with azure.region := s }
  | "azure.tts.language", .str s => { c with azure.tts.language := s }
  | "azure.tts.voiceName", .str s => { c with azure.tts.voiceName := s }
  | "azure.tts.outputFormat", .str s => { c with azure.tts.outputFormat := s }
  | "azure.stt.language", .str s => { c with azure.stt.language := s }
  | "app.vad.activationMode", .str s => { c with app.vad.activationMode := s }
  | "app.vad.activationDelay", .int n => { c with app.vad.activationDelay := n }
  | "app.talkDetect.silenceThreshold", .int n => { c with app.talkDetect.silenceThreshold := n }
  | "app.talkDetect.speechThreshold", .int n => { c with app.talkDetect.speechThreshold := n }
  | "app.prompt.mode", .str s => { c with app.prompt.mode := some s }
  | "app.prompt.playbackPath", .str s => { c with app.prompt.playbackPath := some s }
  | "app.timeouts.session", .int n => { c with app.timeouts.session := n }
  | "app.timeouts.noInput", .int n => { c with app.timeouts.noInput := n }
  | "rtpServer.preBufferSize", .int n => { c with rtpServer.preBufferSize := n }
  | "app.dtmf.enabled", .bool b => { c with app.dtmf.enabled := b }
  | "app.dtmf.completionTimeout", .int n => { c with app.dtmf.completionTimeout := n }
  | "rtpServer.ip", .str s => { c with rtpServer.ip := s }
  | "rtpServer.port", .int n => { c with rtpServer.port := n }
  | "rtpServer.audioFormat", .str s => { c with rtpServer.audioFormat := s }
  | "logging.level", .str s => { c with logging.level := s }
  | "database.dialect", .str s => { c with database.dialect := s }
  | "database.storage", .str s => { c with database.storage := s }
  | "database.host", .str s => { c with database.host := s }
  | "database.port", .int n => { c with database.port := n }
  | "database.username", .str s => { c with database.username := s }
  | "database.password", .str s => { c with database.password := s }
  | "database.database", .str s => { c with database.database := s }
  | _, _ => c

/-- The log lines the merge emits. -/
inductive LogEntry where
  | infoOverride (path : String)
  | warnUnparsable (key : String)
  | warnUnknown (key : String)
  deriving Repr, DecidableEq

/-- The body of `createCallConfig`'s loop for one `[key, value]` entry:
non-`APP_VAR_` keys are skipped, `APP_VAR_` keys outside the mapping log a
warning and are ignored, unparsable values log a warning and are dropped,
and successful parses are `set` into the per-call config. -/
def ccStep (acc : Config × List LogEntry) (kv : String × String) : Config × List LogEntry :=
  if jsStartsWith kv.1 "APP_VAR_" then
    let configKey := kv.1.drop 8
    match lookupPath configKey with
    | some configPath =>
        match parseDialplanValue configKey kv.2 with
        | some v => (setPath acc.1 configPath v, acc.2 ++ [.infoOverride configPath])
        | none => (acc.1, acc.2 ++ [.warnUnparsable kv.1])
    | none => (acc.1, acc.2 ++ [.warnUnknown kv.1])
  else acc

/-- `createCallConfig(dialplanVars, logger)`: fold the entries over the
(cloned) defaults, collecting the log. -/
def createCallConfig (defaults : Config) (dialplanVars : List (String × String)) :
    Config × List LogEntry :=
  dialplanVars.foldl ccStep (defaults, [])

/-- Spec-side description of which entries take effect, following claim
C7's words: only `APP_VAR_`-prefixed keys present in the mapping whose
values parse to the declared type. -/
def appliesAs (kv : String × String) : Option (String × DpValue) :=
  if jsStartsWith kv.1 "APP_VAR_" then
    match lookupPath (kv.1.drop 8) with
    | some p => (parseDialplanValue (kv.1.drop 8) kv.2).map (fun v => (p, v))
    | none => none
  else none

/-- Spec-side merge: apply exactly the effective overrides to the
defaults; ignored and dropped entries leave the default in place. -/
def applyOverridesSpec (defaults : Config) (vars : List (String × String)) : Config :=
  (vars.filterMap appliesAs).foldl (fun c pv => setPath c pv.1 pv.2) defaults

/-- The log lines one entry produces. -/
def logOf (kv : String × String) : List LogEntry :=
  if jsStartsWith kv.1 "APP_VAR_" then
    match lookupPath (kv.1.drop 8) with
    | some p =>
        match parseDialplanValue (kv.1.drop 8) kv.2 with
        | some _ => [.infoOverride p]
        | none => [.warnUnparsable kv.1]
    | none => [.warnUnknown kv.1]
  else []

/-- Characterization of the merge fold: the resulting configuration is
the spec-side application of the effective overrides, and the log is the
concatenation of the per-entry log lines. -/
theorem ccc_eq (vars : List (String × String)) :
    ∀ (c : Config) (logs : List LogEntry),
    vars.foldl ccStep (c, logs)
      = ((vars.filterMap appliesAs).foldl (fun c pv => setPath c pv.1 pv.2) c,
         logs ++ vars.flatMap logOf) := by
  induction vars with
  | nil => intro c logs; simp
  | cons kv vs ih =>
      intro c logs
      by_cases hpf : jsStartsWith kv.1 "APP_VAR_"
      · cases hlk : lookupPath (kv.1.drop 8) with
        | some p =>
            cases hpv : parseDialplanValue (kv.1.drop 8) kv.2 with
            | some v =>
                have hstep : ccStep (c, logs) kv
                    = (setPath c p v, logs ++ [.infoOverride p]) := by
                  simp [ccStep, hpf, hlk, hpv]
                have happ : appliesAs kv = some (p, v) := by
                  simp [appliesAs, hpf, hlk, hpv]
                have hlog : logOf kv = [.infoOverride p] := by
                  simp [logOf, hpf, hlk, hpv]
                simp only [List.foldl_cons, hstep, List.filterMap_cons, happ,
                  List.flatMap_cons, hlog, ih]
                simp
            | none =>
                have hstep : ccStep (c, logs) kv
                    = (c, logs ++ [.warnUnparsable kv.1]) := by
                  simp [ccStep, hpf, hlk, hpv]
                have happ : appliesAs kv = none := by
                  simp [appliesAs, hpf, hlk, hpv]
                have hlog : logOf kv = [.warnUnparsable kv.1] := by
                  simp [logOf, hpf, hlk, hpv]
                simp only [List.foldl_cons, hstep, List.filterMap_cons, happ,
                  List.flatMap_cons, hlog, ih]
                simp
        | none =>
            have hstep : ccStep (c, logs) kv
                = (c, logs ++ [.warnUnknown kv.1]) := by
              simp [ccStep, hpf, hlk]
            have happ : appliesAs kv = none := by
              simp [appliesAs, hpf, hlk]
            have hlog : logOf kv = [.warnUnknown kv.1] := by
              simp [logOf, hpf, hlk]
            simp only [List.foldl_cons, hstep, List.filterMap_cons, happ,
              List.flatMap_cons, hlog, ih]
            simp
      · have hstep : ccStep (c, logs) kv = (c, logs) := by
          simp [ccStep, hpf]
        have happ : appliesAs kv = none := by
          simp [appliesAs, hpf]
        have hlog : logOf kv = [] := by
          simp [logOf, hpf]
        simp only [List.foldl_cons, hstep, List.filterMap_cons, happ,
          List.flatMap_cons, hlog, ih]
        simp

end CallConfig

namespace CallConfig

/-- C7: for every map of script variables, `createCallConfig` applies to
the (cloned) defaults exactly the `APP_VAR_`-prefixed keys present in its
fixed name-to-path mapping whose values parse to their declared type; an
`APP_VAR_` key outside the mapping is logged and ignored, and a value
failing to parse is logged and dropped, leaving the default value for
that path in place (both captured by those entries contributing nothing
to the spec-side fold). -/
theorem createCallConfig_applies_only_mapped (defaults : Config)
    (vars : List (String × String)) :
    (createCallConfig defaults vars).1 = applyOverridesSpec defaults vars ∧
    (∀ kv ∈ vars, jsStartsWith kv.1 "APP_VAR_" = true →
        lookupPath (kv.1.drop 8) = none →
        LogEntry.warnUnknown kv.1 ∈ (createCallConfig defaults vars).2) ∧
    (∀ kv ∈ vars, jsStartsWith kv.1 "APP_VAR_" = true →
        ∀ p, lookupPath (kv.1.drop 8) = some p →
        parseDialplanValue (kv.1.drop 8) kv.2 = none →
        LogEntry.warnUnparsable kv.1 ∈ (createCallConfig defaults vars).2) := by
  have h := ccc_eq vars defaults []
  have h1 : (createCallConfig defaults vars).1 = applyOverridesSpec defaults vars := by
    rw [createCallConfig, h]; rfl
  have h2 : (createCallConfig defaults vars).2 = vars.flatMap logOf := by
    rw [createCallConfig, h]; rfl
  refine ⟨h1, ?_, ?_⟩
  · intro kv hkv hpf hlk
    rw [h2]
    exact List.mem_flatMap.mpr ⟨kv, hkv, by simp [logOf, hpf, hlk]⟩
  · intro kv hkv hpf p hlk hpv
    rw [h2]
    exact List.mem_flatMap.mpr ⟨kv, hkv, by simp [logOf, hpf, hlk, hpv]⟩

/-- Concrete variables: an unmapped `APP_VAR_` key, an unparsable integer
override, a good override, and a non-`APP_VAR_` key. -/
def sampleVars : List (String × String) :=
  [("APP_VAR_BOGUS_KEY", "x"), ("APP_VAR_NO_INPUT_TIMEOUT_MS", "abc"),
   ("APP_VAR_NO_INPUT_TIMEOUT_MS", "1500"), ("SOME_OTHER_VAR", "y")]

/-- Witness for C7 at `sampleVars`: the unknown key and the unparsable
value are each logged. -/
theorem createCallConfig_applies_only_mapped_witness :
    LogEntry.warnUnknown "APP_VAR_BOGUS_KEY"
        ∈ (createCallConfig default sampleVars).2 ∧
    LogEntry.warnUnparsable "APP_VAR_NO_INPUT_TIMEOUT_MS"
        ∈ (createCallConfig default sampleVars).2 :=
  ⟨(createCallConfig_applies_only_mapped default sampleVars).2.1
      ("APP_VAR_BOGUS_KEY", "x") (by decide) (by decide) (by decide),
   (createCallConfig_applies_only_mapped default sampleVars).2.2
      ("APP_VAR_NO_INPUT_TIMEOUT_MS", "abc") (by decide) (by decide)
      "app.timeouts.noInput" (by decide) (by decide)⟩

/-- The configuration effect of one loop iteration (logs discarded). -/
def applyEntry (c : Config) (kv : String × String) : Config := (ccStep (c, []) kv).1

/-- A store of configuration objects, making JS object identity explicit:
addresses are list indices. -/
abbrev Heap := List Config

/-- `createCallConfig` with the aliasing made explicit: the process-wide
`config` lives at `gAddr`; `cloneDeep(config)` allocates a fresh object
holding a copy of its value, and each loop iteration's `set` mutates the
clone in place.  Returns the heap and the clone's address. -/
def createCallConfigHeap (h : Heap) (gAddr : Nat) (vars : List (String × String)) :
    Heap × Nat :=
  let g := h.getD gAddr default
  let callAddr := h.length
  let h1 := h ++ [g]
  let h2 := vars.foldl (fun hh kv =>
      hh.set callAddr (applyEntry (hh.getD callAddr default) kv)) h1
  (h2, callAddr)

/-- Mutating the clone's cell never touches another address. -/
theorem heapFold_get_ne (vars : List (String × String)) :
    ∀ (hh : Heap) (i j : Nat), i ≠ j →
    (vars.foldl (fun hh kv => hh.set j (applyEntry (hh.getD j default) kv)) hh)[i]?
      = hh[i]? := by
  induction vars with
  | nil => intro hh i j _; rfl
  | cons kv vs ih =>
      intro hh i j hij
      simp only [List.foldl_cons]
      rw [ih _ i j hij, List.getElem?_set_ne (fun hji => hij hji.symm)]

/-- The clone's cell accumulates the per-entry applications. -/
theorem heapFold_get_eq (vars : List (String × String)) :
    ∀ (hh : Heap) (j : Nat) (c : Config), hh[j]? = some c →
    (vars.foldl (fun hh kv => hh.set j (applyEntry (hh.getD j default) kv)) hh)[j]?
      = some (vars.foldl applyEntry c) := by
  induction vars with
  | nil => intro hh j c hc; exact hc
  | cons kv vs ih =>
      intro hh j c hc
      have hj : j < hh.length := by
        by_contra hnot
        rw [List.getElem?_eq_none (Nat.le_of_not_lt hnot)] at hc
        cases hc
      have hgd : hh.getD j default = c := by
        simp [List.getD_eq_getElem?_getD, hc]
      simp only [List.foldl_cons]
      apply ih
      rw [hgd, List.getElem?_set_self hj]

/-- Folding the per-entry effect equals `createCallConfig`'s result. -/
theorem applyEntry_foldl_eq (vars : List (String × String)) :
    ∀ c : Config, vars.foldl applyEntry c = (createCallConfig c vars).1 := by
  intro c
  have h := ccc_eq vars c []
  have h2 : ∀ (vs : List (String × String)) (cc : Config) (logs : List LogEntry),
      vs.foldl applyEntry cc = (vs.foldl ccStep (cc, logs)).1 := by
    intro vs
    induction vs with
    | nil => intro cc logs; rfl
    | cons kv vv ih =>
        intro cc logs
        simp only [List.foldl_cons]
        rw [ih (applyEntry cc kv) ((ccStep (cc, logs) kv).2)]
        have : ccStep (cc, logs) kv = ((ccStep (cc, logs) kv).1, (ccStep (cc, logs) kv).2) := rfl
        rw [this]
        have hfst : (ccStep (cc, logs) kv).1 = applyEntry cc kv := by
          simp only [applyEntry, ccStep]
          by_cases hpf : jsStartsWith kv.1 "APP_VAR_"
          · simp only [hpf, if_true]
            cases hlk : lookupPath (kv.1.drop 8) with
            | none => rfl
            | some p =>
                cases hpv : parseDialplanValue (kv.1.drop 8) kv.2 <;> rfl
          · simp [hpf]
        rw [hfst]
    
  exact h2 vars c []

/-- C9: building the per-call configuration leaves the process-wide
default configuration object unchanged at its address — the overrides act
only on the freshly allocated clone, which is a distinct object whose
value is `createCallConfig` of the defaults. -/
theorem createCallConfig_frame (h : Heap) (gAddr : Nat)
    (vars : List (String × String)) (hg : gAddr < h.length) :
    (createCallConfigHeap h gAddr vars).1[gAddr]? = h[gAddr]? ∧
    (createCallConfigHeap h gAddr vars).2 ≠ gAddr ∧
    (createCallConfigHeap h gAddr vars).1[(createCallConfigHeap h gAddr vars).2]?
      = some (createCallConfig (h.getD gAddr default) vars).1 := by
  have hne : gAddr ≠ h.length := Nat.ne_of_lt hg
  refine ⟨?_, ?_, ?_⟩
  · show (vars.foldl _ (h ++ [h.getD gAddr default]))[gAddr]? = h[gAddr]?
    rw [heapFold_get_ne vars _ gAddr h.length hne]
    exact List.getElem?_append_left hg
  · exact fun hc => hne hc.symm
  · show (vars.foldl _ (h ++ [h.getD gAddr default]))[h.length]?
      = some (createCallConfig (h.getD gAddr default) vars).1
    rw [heapFold_get_eq vars _ h.length (h.getD gAddr default)
      (List.getElem?_concat_length h _), applyEntry_foldl_eq]

/-- Witness for C9: a one-object heap with one override applied; the
defaults cell is untouched. -/
theorem createCallConfig_frame_witness :
    (createCallConfigHeap [default] 0 [("APP_VAR_LOG_LEVEL", "debug")]).1[(0 : Nat)]?
      = some (default : Config) := by
  have h := createCallConfig_frame [default] 0 [("APP_VAR_LOG_LEVEL", "debug")]
    (by decide)
  exact h.1.trans rfl

end CallConfig
